import Mathlib

/-!
# Verification of the wd14-tagger API orchestration layer

Shallow embedding of `extensions/stable-diffusion-webui-wd14-tagger/tagger/api.py`
from the stable-diffusion-web-ui repository: the `Api` class with its
`auth`, `endpoint_interrogate` and `endpoint_unload_interrogators` members.

The Python module collaborates with external code that is not part of the
given sources (`tagger/uiset.py` providing the `QData` singleton with its
`apply_filters`/`finalize` operations, `tagger/utils.py` providing the
interrogator registry, `modules/api/api.py` providing base64 image decoding,
and the host's `queue_lock`).  Those collaborators are modelled from the
spec as abstract data carried in an `Env` record; the control flow of
`api.py` itself is embedded line by line.

`endpoint_interrogate` is embedded as a pure function from an environment,
a starting Shared Filter State and a request to a result, a final state and
a trace of observable events.  The events record the order in which the
source performs image decoding, registry lookup, lock acquisition, state
reset, model invocation, filtering, finalization and lock release, so that
ordering claims become statements about the trace.

Mutual exclusion of the `with self.queue_lock:` region across concurrent
calls is settled separately on a small interleaving machine in which every
thread runs the program counter sequence of the locked region and the lock
is a mutex (the semantics of Python's `threading.Lock`).
-/

namespace Tagger

/-- Confidence score attached to a label.  The Python code only carries the
numeric payload around, never computing with it, so an integer stands in
for the float. -/
abbrev Score := Int

/-- A Python `dict` from label to score, as an insertion-ordered
association list; well-formed dicts have pairwise distinct keys. -/
abbrev Dict := List (String × Score)

/-- A decoded image handle; the decoder is external, so the handle is
treated as an uninterpreted value. -/
abbrev Image := String

/-- Modelled from the spec: the Shared Filter State singleton `QData` of
`tagger/uiset.py` (not among the given sources), with its four containers:
`tags` (label → accumulated score), `ratings` (rating-category → score),
`in_db` (labels already known) and `for_tags_file` (labels selected for
auxiliary output). -/
structure QDataState where
  tags : Dict
  ratings : Dict
  in_db : List String
  for_tags_file : List String
  deriving DecidableEq, Repr

/-- Lines 88-91 of `api.py`: the four unconditional `clear()` calls
`QData.tags.clear(); QData.ratings.clear(); QData.in_db.clear();
QData.for_tags_file.clear()`, one container at a time. -/
def resetQData (st : QDataState) : QDataState :=
  let st := { st with tags := [] }
  let st := { st with ratings := [] }
  let st := { st with in_db := [] }
  { st with for_tags_file := [] }

/-- FastAPI's `HTTPException`, as raised by `api.py`: a status code, a
detail string and optional response headers. -/
structure HTTPException where
  status_code : Nat
  detail : String
  headers : List (String × String) := []
  deriving DecidableEq, Repr

/-- An error escaping `endpoint_interrogate`: either an `HTTPException`
raised by the endpoint itself or an exception propagating out of the
engine/filter/finalize collaborators. -/
inductive ApiError where
  | http (e : HTTPException)
  | engine (msg : String)
  deriving DecidableEq, Repr

/-- Modelled from the spec: the request body of `POST .../interrogate`
(`tagger/api_models.py` is not among the given sources): an optional
base64 image string and a model name. -/
structure TaggerInterrogateRequest where
  image : Option String
  model : String
  deriving DecidableEq, Repr

/-- Modelled from the spec: the response body of `POST .../interrogate`:
a single label → score mapping. -/
structure TaggerInterrogateResponse where
  caption : Dict
  deriving DecidableEq, Repr

/-- A Model Handle of the registry: `interrogate(image)` returns raw
(ratings, tags) maps or raises, and `unload()` reports whether resources
were actually freed. -/
structure Interrogator where
  interrogate : Image → Except String (Dict × Dict)
  unload : Bool

/-- The tuple `('', '', '') + interrogator.interrogate(image)` fed to
`QData.apply_filters` on line 92: three empty placeholder fields followed
by the raw ratings and tags maps. -/
abbrev FilterData := String × String × String × Dict × Dict

/-- The external collaborators of `api.py`, modelled from the spec:
the interrogator registry `utils.interrogators`, the image decoder
`decode_base64_to_image`, and the `QData.apply_filters` / `QData.finalize`
operations of `tagger/uiset.py` (threshold and selection policy are
external configuration, so both are arbitrary functions that may also
raise).  `finalize` returns the three indexable components
`output[0], output[1], output[2]` used on lines 98-100, together with the
state it leaves behind. -/
structure Env where
  interrogators : List (String × Interrogator)
  decode_base64_to_image : String → Image
  apply_filters : FilterData → QDataState → Except String QDataState
  finalize : Nat → QDataState → Except String ((Dict × Dict × Dict) × QDataState)

/-- Observable events of one `endpoint_interrogate` call, in the order the
source performs them.  `clearState` carries the Shared Filter State as it
stands immediately after the four `clear()` calls; `finalizeCall` carries
the batch-size argument passed to `QData.finalize`. -/
inductive Event where
  | decodeImageCall
  | lookupModel (name : String)
  | acquire
  | clearState (st : QDataState)
  | invokeCall
  | applyFiltersCall
  | finalizeCall (batch : Nat)
  | release
  deriving DecidableEq, Repr

/-- The body of `with self.queue_lock:` (lines 88-94): reset the four
containers, invoke the engine, feed the placeholder-prefixed raw output to
`apply_filters`, then `finalize(1)`.  Any of the three collaborator calls
may raise; the raised error is propagated to the caller of the block. -/
def queueLockSection (env : Env) (st : QDataState) (intr : Interrogator)
    (image : Image) :
    Except ApiError (Dict × Dict × Dict) × QDataState × List Event :=
  let st1 := resetQData st
  let evs1 := [Event.clearState st1, Event.invokeCall]
  match intr.interrogate image with
  | .error e => (.error (.engine e), st1, evs1)
  | .ok raw =>
    let data : FilterData := ("", "", "", raw.1, raw.2)
    let evs2 := evs1 ++ [Event.applyFiltersCall]
    match env.apply_filters data st1 with
    | .error e => (.error (.engine e), st1, evs2)
    | .ok st2 =>
      let evs3 := evs2 ++ [Event.finalizeCall 1]
      match env.finalize 1 st2 with
      | .error e => (.error (.engine e), st2, evs3)
      | .ok (out, st3) => (.ok out, st3, evs3)

/-- Python's `\x7b**a, **b\x7d` dict merge: the keys of `a` in their
order, each bound to `b`'s value when `b` also has the key, followed by
the keys of `b` absent from `a`; on any collision the later source `b`
wins. -/
def dictUpdate (a b : Dict) : Dict :=
  a.map (fun p => match b.lookup p.1 with | some v => (p.1, v) | none => p) ++
  b.filter (fun p => (a.lookup p.1).isNone)

/-- First-defined option, used to phrase "later merge sources win": the
lookup of a merged dict prefers the later source. -/
def pick (x y : Option Score) : Option Score :=
  match x with
  | some v => some v
  | none => y

/-- `Api.endpoint_interrogate` (lines 77-102 of `api.py`): image-presence
check, model-membership check, decode, registry lookup, then the locked
section, then the response built by merging `output[0]`, `output[1]`,
`output[2]`.  Returns the result, the final Shared Filter State and the
event trace of the call; the `release` event is appended on every path out
of the locked section, mirroring the `with` statement. -/
def endpoint_interrogate (env : Env) (st : QDataState)
    (req : TaggerInterrogateRequest) :
    Except ApiError TaggerInterrogateResponse × QDataState × List Event :=
  match req.image with
  | none => (.error (.http ⟨404, "Image not found", []⟩), st, [])
  | some b64 =>
    match env.interrogators.lookup req.model with
    | none => (.error (.http ⟨404, "Model not found", []⟩), st, [])
    | some intr =>
      let image := env.decode_base64_to_image b64
      let evsPre := [Event.decodeImageCall, Event.lookupModel req.model,
                     Event.acquire]
      let r := queueLockSection env st intr image
      ((match r.1 with
        | .error e => .error e
        | .ok out => .ok ⟨dictUpdate (dictUpdate out.1 out.2.1) out.2.2⟩),
       r.2.1, evsPre ++ r.2.2 ++ [Event.release])

/-- `Api.endpoint_unload_interrogators` (lines 108-115): iterate the
registry, call `unload()` on each handle, count the `True` results and
render the count string. -/
def endpoint_unload_interrogators
    (interrogators : List (String × Interrogator)) : String :=
  let unloaded_models :=
    interrogators.foldl (fun acc i => if i.2.unload then acc + 1 else acc) 0
  s!"Successfully unload {unloaded_models} model(s)"

/-- `Api.endpoint_interrogators` (lines 103-106): the list of registered
model names. -/
def endpoint_interrogators (env : Env) : List String :=
  env.interrogators.map Prod.fst

/-- HTTP Basic credentials as handed to `Api.auth`. -/
structure HTTPBasicCredentials where
  username : String
  password : String
  deriving DecidableEq, Repr

/-- Modelled from the spec: Python's `secrets.compare_digest` returns
`True` exactly when its two string arguments are equal; its constant-time
execution is a timing property with no functional content. -/
def compare_digest (a b : String) : Bool := a == b

/-- The 401 raised by `Api.auth` on any credential mismatch. -/
def unauthorized : HTTPException :=
  ⟨401, "Incorrect username or password", [("WWW-Authenticate", "Basic")]⟩

/-- `Api.auth` (lines 53-66): succeed only when the username is a key of
the credential table and `compare_digest` accepts the presented password
against the stored one; otherwise raise the 401 with the Basic challenge
header. -/
def auth (credentials : List (String × String))
    (creds : HTTPBasicCredentials) : Except HTTPException Bool :=
  match credentials.lookup creds.username with
  | some pw =>
    if compare_digest creds.password pw then .ok true
    else .error unauthorized
  | none => .error unauthorized

/-- `true` at positions of the trace where the queue lock is held: more
acquisitions than releases have happened strictly before index `i`. -/
def heldBefore (tr : List Event) (i : Nat) : Bool :=
  (tr.take i).count Event.acquire > (tr.take i).count Event.release

/-- Whether an event is a registry lookup. -/
def Event.isLookup : Event → Bool
  | .lookupModel _ => true
  | _ => false

/-- The reading of claim C9 on traces: every registry lookup of the call
happens while the queue lock is held. -/
def lookupsUnderGate (tr : List Event) : Bool :=
  (List.range tr.length).all fun i =>
    !(tr.getD i Event.release).isLookup || heldBefore tr i

/-!
## Interleaving machine for the queue lock

Each thread runs one `endpoint_interrogate` call.  Its program counter
walks through the locked region of lines 87-94: after acquiring the lock
it clears the state (`critClear`), invokes the engine (`critInfer`), runs
`apply_filters` (`critFilter`) and `finalize` (`critFinal`); each of the
three collaborator calls may instead raise, in which case the `with`
statement releases the lock and the call ends in `doneErr`.  The lock is a
mutex — the semantics of the host's `threading.Lock` — held by at most the
thread recorded in `lock`.
-/

/-- Program counter of one interrogation call, restricted to the part of
the call that interacts with the queue lock. -/
inductive PC where
  | start
  | critClear
  | critInfer
  | critFilter
  | critFinal
  | done
  | doneErr
  deriving DecidableEq, Repr

/-- The program counters inside the `with self.queue_lock:` region: the
state reset, the model invocation, `apply_filters` and `finalize`. -/
def PC.inCrit : PC → Bool
  | .critClear => true
  | .critInfer => true
  | .critFilter => true
  | .critFinal => true
  | _ => false

/-- A system of `n` concurrent interrogation calls: the program counter of
each thread and the current holder of the queue lock. -/
structure Sys (n : Nat) where
  pc : Fin n → PC
  lock : Option (Fin n)

/-- All calls about to start, lock free. -/
def Sys.init (n : Nat) : Sys n :=
  { pc := fun _ => PC.start, lock := none }

/-- One interleaving step: a thread acquires the free lock, advances
through the locked region, or leaves it — releasing the lock — either
normally after `finalize` or because a collaborator raised and the `with`
statement unwound. -/
inductive Step {n : Nat} : Sys n → Sys n → Prop where
  | acquire (s : Sys n) (t : Fin n)
      (hpc : s.pc t = PC.start) (hl : s.lock = none) :
      Step s { pc := Function.update s.pc t PC.critClear, lock := some t }
  | clearDone (s : Sys n) (t : Fin n) (hpc : s.pc t = PC.critClear) :
      Step s { pc := Function.update s.pc t PC.critInfer, lock := s.lock }
  | inferOk (s : Sys n) (t : Fin n) (hpc : s.pc t = PC.critInfer) :
      Step s { pc := Function.update s.pc t PC.critFilter, lock := s.lock }
  | inferRaise (s : Sys n) (t : Fin n) (hpc : s.pc t = PC.critInfer) :
      Step s { pc := Function.update s.pc t PC.doneErr, lock := none }
  | filterOk (s : Sys n) (t : Fin n) (hpc : s.pc t = PC.critFilter) :
      Step s { pc := Function.update s.pc t PC.critFinal, lock := s.lock }
  | filterRaise (s : Sys n) (t : Fin n) (hpc : s.pc t = PC.critFilter) :
      Step s { pc := Function.update s.pc t PC.doneErr, lock := none }
  | finalOk (s : Sys n) (t : Fin n) (hpc : s.pc t = PC.critFinal) :
      Step s { pc := Function.update s.pc t PC.done, lock := none }
  | finalRaise (s : Sys n) (t : Fin n) (hpc : s.pc t = PC.critFinal) :
      Step s { pc := Function.update s.pc t PC.doneErr, lock := none }

/-- States reachable from the initial system by interleaving steps. -/
inductive Reachable {n : Nat} : Sys n → Prop where
  | init : Reachable (Sys.init n)
  | step {s s' : Sys n} : Reachable s → Step s s' → Reachable s'

/-- The lock-ownership invariant: a thread inside the locked region is the
recorded lock holder. -/
def LockInv {n : Nat} (s : Sys n) : Prop :=
  ∀ t : Fin n, (s.pc t).inCrit = true → s.lock = some t

/-!
## Concrete fixtures

A small registry, environment and request used to evaluate the embedded
endpoints on closed inputs.
-/

/-- A stub interrogator: raw ratings `general ↦ 9` and raw tags
`cat ↦ 8, x ↦ 1`; its `unload()` reports success. -/
def intrT : Interrogator :=
  { interrogate := fun _ => .ok ([("general", 9)], [("cat", 8), ("x", 1)]),
    unload := true }

/-- A stub interrogator whose engine raises and whose `unload()` declines. -/
def intrF : Interrogator :=
  { interrogate := fun _ => .error "engine failure",
    unload := false }

/-- An environment with one registered model `wd`, a pass-through filter
policy and a finalize step that returns the filtered ratings, the filtered
tags, and a supplementary component `x ↦ 5`. -/
def envT : Env :=
  { interrogators := [("wd", intrT)],
    decode_base64_to_image := fun s => s,
    apply_filters := fun d st =>
      .ok { st with ratings := d.2.2.2.1, tags := d.2.2.2.2 },
    finalize := fun _ st => .ok ((st.ratings, st.tags, [("x", 5)]), st) }

/-- An environment whose only model's engine raises. -/
def envF : Env :=
  { envT with interrogators := [("wd", intrF)] }

/-- Leftover Shared Filter State from a previous call. -/
def stT : QDataState :=
  { tags := [("stale", 1)], ratings := [("staler", 2)],
    in_db := ["seen"], for_tags_file := ["file"] }

/-- A well-formed request for the registered model. -/
def reqT : TaggerInterrogateRequest := { image := some "imgbytes", model := "wd" }

/-- A request with no image. -/
def reqNoImage : TaggerInterrogateRequest := { image := none, model := "wd" }

/-- A request naming an unregistered model. -/
def reqNoModel : TaggerInterrogateRequest :=
  { image := some "imgbytes", model := "missing" }

/-- A request with no image that also names an unregistered model. -/
def reqNeither : TaggerInterrogateRequest := { image := none, model := "missing" }

/-- The system of two interrogation calls after the first has acquired the
queue lock and stands at the state reset. -/
def sysW : Sys 2 :=
  { pc := Function.update (Sys.init 2).pc 0 PC.critClear, lock := some 0 }

theorem lockInv_init (n : Nat) : LockInv (Sys.init n) := by
  intro t h
  simp [Sys.init, PC.inCrit] at h

/-- A thread already inside the locked region moves to another program
counter inside it; the lock does not change hands. -/
theorem lockInv_advance {n : Nat} {s : Sys n} {t : Fin n} {q : PC}
    (hinv : LockInv s) (hold : (s.pc t).inCrit = true) :
    LockInv { pc := Function.update s.pc t q, lock := s.lock } := by
  intro u hu
  by_cases hut : u = t
  · subst hut
    exact hinv u hold
  · rw [show ({ pc := Function.update s.pc t q, lock := s.lock } : Sys n).pc u
          = s.pc u from Function.update_noteq hut q s.pc] at hu
    exact hinv u hu

/-- The thread inside the locked region leaves it and the lock is
released. -/
theorem lockInv_exit {n : Nat} {s : Sys n} {t : Fin n} {q : PC}
    (hinv : LockInv s) (hold : (s.pc t).inCrit = true)
    (hq : q.inCrit = false) :
    LockInv { pc := Function.update s.pc t q, lock := none } := by
  intro u hu
  exfalso
  by_cases hut : u = t
  · subst hut
    rw [show ({ pc := Function.update s.pc u q, lock := none } : Sys n).pc u
          = q from Function.update_same u q s.pc] at hu
    rw [hq] at hu
    exact Bool.false_ne_true hu
  · rw [show ({ pc := Function.update s.pc t q, lock := none } : Sys n).pc u
          = s.pc u from Function.update_noteq hut q s.pc] at hu
    have h1 := hinv u hu
    have h2 := hinv t hold
    rw [h2] at h1
    exact hut (Option.some.inj h1).symm

theorem lockInv_step {n : Nat} {s s' : Sys n}
    (hinv : LockInv s) (hstep : Step s s') : LockInv s' := by
  cases hstep with
  | acquire t hpc hl =>
    intro u hu
    by_cases hut : u = t
    · simp [hut]
    · exfalso
      rw [show ({ pc := Function.update s.pc t PC.critClear, lock := some t }
            : Sys n).pc u = s.pc u from Function.update_noteq hut _ s.pc] at hu
      have := hinv u hu
      rw [hl] at this
      exact Option.noConfusion this
  | clearDone t hpc =>
    exact lockInv_advance hinv (by rw [hpc]; rfl)
  | inferOk t hpc =>
    exact lockInv_advance hinv (by rw [hpc]; rfl)
  | inferRaise t hpc =>
    exact lockInv_exit hinv (by rw [hpc]; rfl) rfl
  | filterOk t hpc =>
    exact lockInv_advance hinv (by rw [hpc]; rfl)
  | filterRaise t hpc =>
    exact lockInv_exit hinv (by rw [hpc]; rfl) rfl
  | finalOk t hpc =>
    exact lockInv_exit hinv (by rw [hpc]; rfl) rfl
  | finalRaise t hpc =>
    exact lockInv_exit hinv (by rw [hpc]; rfl) rfl

theorem lockInv_reachable {n : Nat} {s : Sys n}
    (h : Reachable s) : LockInv s := by
  induction h with
  | init => exact lockInv_init n
  | step _ hstep ih => exact lockInv_step ih hstep

/-!
## Dict-merge lemmas

Lookup and key-uniqueness facts about `dictUpdate`, the embedding of
Python's two-source dict merge.
-/

theorem lookup_map_override (b : Dict) (k : String) (a : Dict) :
    List.lookup k (a.map (fun p =>
      match b.lookup p.1 with | some v => (p.1, v) | none => p)) =
    match List.lookup k a with
    | some v => some (match List.lookup k b with | some w => w | none => v)
    | none => none := by
  induction a with
  | nil => simp [List.lookup]
  | cons p as ih =>
    obtain ⟨k1, v1⟩ := p
    by_cases hk : k = k1
    · subst hk
      cases hb : List.lookup k b <;> simp [List.lookup, hb]
    · have hbeq : (k == k1) = false := beq_eq_false_iff_ne.mpr hk
      cases hov : List.lookup k1 b <;> simp [List.lookup, hbeq, hov, ih]

theorem lookup_append_pick (l1 l2 : Dict) (k : String) :
    List.lookup k (l1 ++ l2) = pick (List.lookup k l1) (List.lookup k l2) := by
  induction l1 with
  | nil => cases h : List.lookup k l2 <;> simp [List.lookup, pick, h]
  | cons p as ih =>
    obtain ⟨k1, v1⟩ := p
    by_cases hk : k = k1
    · subst hk; simp [List.lookup, pick]
    · have hbeq : (k == k1) = false := beq_eq_false_iff_ne.mpr hk
      simp [List.lookup, hbeq, ih]

theorem lookup_filter_key (f : String → Bool) (b : Dict) (k : String) :
    List.lookup k (b.filter (fun q => f q.1)) =
      if f k then List.lookup k b else none := by
  induction b with
  | nil => simp [List.lookup]
  | cons p bs ih =>
    obtain ⟨k1, v1⟩ := p
    by_cases hk : k = k1
    · subst hk
      cases hf : f k <;> simp [List.filter_cons, List.lookup, hf, ih]
    · have hbeq : (k == k1) = false := beq_eq_false_iff_ne.mpr hk
      cases hf : f k1 <;> simp [List.filter_cons, List.lookup, hbeq, hf, ih]

/-- The lookup of a Python dict merge: the later source `b` wins. -/
theorem dictUpdate_lookup (a b : Dict) (k : String) :
    List.lookup k (dictUpdate a b) =
      pick (List.lookup k b) (List.lookup k a) := by
  unfold dictUpdate
  rw [lookup_append_pick, lookup_map_override,
    lookup_filter_key (fun key => (List.lookup key a).isNone)]
  cases h : List.lookup k a <;> cases hb : List.lookup k b <;>
    simp [h, hb, pick]

theorem lookup_eq_none_iff (a : Dict) (k : String) :
    List.lookup k a = none ↔ k ∉ a.map Prod.fst := by
  induction a with
  | nil => simp [List.lookup]
  | cons p as ih =>
    obtain ⟨k1, v1⟩ := p
    by_cases hk : k = k1
    · subst hk; simp [List.lookup]
    · have hbeq : (k == k1) = false := beq_eq_false_iff_ne.mpr hk
      simp [List.lookup, hbeq, ih, hk]

/-- The keys of the first merge component are preserved by the value
override. -/
theorem keys_map_override (b a : Dict) :
    (a.map (fun p =>
      match b.lookup p.1 with | some v => (p.1, v) | none => p)).map Prod.fst =
    a.map Prod.fst := by
  induction a with
  | nil => rfl
  | cons p as ih =>
    obtain ⟨k1, v1⟩ := p
    cases hb : List.lookup k1 b <;> simp [hb, ih]

/-- A Python dict merge of two dicts with unique keys has unique keys. -/
theorem dictUpdate_keys_nodup {a b : Dict}
    (ha : (a.map Prod.fst).Nodup) (hb : (b.map Prod.fst).Nodup) :
    ((dictUpdate a b).map Prod.fst).Nodup := by
  unfold dictUpdate
  rw [List.map_append, keys_map_override]
  refine List.Nodup.append ha ?_ ?_
  · exact hb.sublist (List.Sublist.map Prod.fst (List.filter_sublist b))
  · intro x hx1 hx2
    have hnone : List.lookup x a ≠ none := fun hc =>
      ((lookup_eq_none_iff a x).mp hc) hx1
    obtain ⟨q, hq, hqx⟩ := List.mem_map.mp hx2
    have hmem := List.mem_filter.mp hq
    have : (List.lookup q.1 a).isNone = true := by
      simpa using hmem.2
    rw [hqx] at this
    exact hnone (Option.isNone_iff_eq_none.mp this)

/-!
## Trace-shape lemmas for the locked section
-/

/-- Whatever the three collaborator calls do, the locked section first
records the state reset — carrying the cleared state — and then the model
invocation. -/
theorem queueLockSection_trace_shape (env : Env) (st : QDataState)
    (intr : Interrogator) (img : Image) :
    ∃ rest, (queueLockSection env st intr img).2.2 =
      Event.clearState (resetQData st) :: Event.invokeCall :: rest := by
  cases h1 : intr.interrogate img with
  | error e => exact ⟨[], by simp [queueLockSection, h1]⟩
  | ok raw =>
    cases h2 : env.apply_filters ("", "", "", raw.1, raw.2) (resetQData st) with
    | error e =>
      exact ⟨[Event.applyFiltersCall], by simp [queueLockSection, h1, h2]⟩
    | ok st2 =>
      cases h3 : env.finalize 1 st2 with
      | error e =>
        exact ⟨[Event.applyFiltersCall, Event.finalizeCall 1],
          by simp [queueLockSection, h1, h2, h3]⟩
      | ok out =>
        exact ⟨[Event.applyFiltersCall, Event.finalizeCall 1],
          by simp [queueLockSection, h1, h2, h3]⟩

/-- The locked section itself never touches the lock: its trace holds no
acquire and no release event. -/
theorem queueLockSection_no_lock_events (env : Env) (st : QDataState)
    (intr : Interrogator) (img : Image) :
    (queueLockSection env st intr img).2.2.count Event.acquire = 0 ∧
    (queueLockSection env st intr img).2.2.count Event.release = 0 := by
  cases h1 : intr.interrogate img with
  | error e => simp [queueLockSection, h1]
  | ok raw =>
    cases h2 : env.apply_filters ("", "", "", raw.1, raw.2) (resetQData st) with
    | error e => simp [queueLockSection, h1, h2]
    | ok st2 =>
      cases h3 : env.finalize 1 st2 with
      | error e => simp [queueLockSection, h1, h2, h3]
      | ok out => simp [queueLockSection, h1, h2, h3]

/-- A state carried by a `clearState` event of the locked section is the
reset state. -/
theorem queueLockSection_clearState_mem (env : Env) (st st' : QDataState)
    (intr : Interrogator) (img : Image)
    (h : Event.clearState st' ∈ (queueLockSection env st intr img).2.2) :
    st' = resetQData st := by
  cases h1 : intr.interrogate img with
  | error e => simp [queueLockSection, h1] at h; exact h
  | ok raw =>
    cases h2 : env.apply_filters ("", "", "", raw.1, raw.2) (resetQData st) with
    | error e => simp [queueLockSection, h1, h2] at h; exact h
    | ok st2 =>
      cases h3 : env.finalize 1 st2 with
      | error e => simp [queueLockSection, h1, h2, h3] at h; exact h
      | ok out => simp [queueLockSection, h1, h2, h3] at h; exact h

/-- Every finalize event of the locked section carries batch size 1. -/
theorem queueLockSection_finalize_batch (env : Env) (st : QDataState)
    (intr : Interrogator) (img : Image) (n : Nat)
    (h : Event.finalizeCall n ∈ (queueLockSection env st intr img).2.2) :
    n = 1 := by
  cases h1 : intr.interrogate img with
  | error e => simp [queueLockSection, h1] at h
  | ok raw =>
    cases h2 : env.apply_filters ("", "", "", raw.1, raw.2) (resetQData st) with
    | error e => simp [queueLockSection, h1, h2] at h
    | ok st2 =>
      cases h3 : env.finalize 1 st2 with
      | error e => simp [queueLockSection, h1, h2, h3] at h; exact h
      | ok out => simp [queueLockSection, h1, h2, h3] at h; exact h

/-- Counting `unload()` successes by a fold equals counting them by
`countP`. -/
theorem foldl_unload_count (l : List (String × Interrogator)) (n : Nat) :
    l.foldl (fun acc i => if i.2.unload then acc + 1 else acc) n =
      n + l.countP (fun i => i.2.unload) := by
  induction l generalizing n with
  | nil => simp
  | cons p l ih =>
    simp only [List.foldl_cons, List.countP_cons]
    cases hp : p.2.unload
    · simp [hp, ih]
    · simp [hp, ih]
      omega

/-!
## Claim theorems
-/

/-- C1: at most one interrogation call executes the critical section
STATE_RESET through AGGREGATING at any instant: in every state reachable
by interleaving concurrent `endpoint_interrogate` calls, any two threads
whose program counters lie inside the `with self.queue_lock:` region — the
state reset, the model invocation, `apply_filters` and `finalize` — are
the same thread, all of them being serialized under the single shared
queue lock. -/
theorem queue_lock_mutual_exclusion {n : Nat} {s : Sys n}
    (h : Reachable s) (t1 t2 : Fin n)
    (h1 : (s.pc t1).inCrit = true) (h2 : (s.pc t2).inCrit = true) :
    t1 = t2 := by
  have hinv := lockInv_reachable h
  have e1 := hinv t1 h1
  have e2 := hinv t2 h2
  rw [e1] at e2
  exact Option.some.inj e2

theorem queue_lock_mutual_exclusion_witness :
    (sysW.pc 0).inCrit = true ∧ (0 : Fin 2) = 0 :=
  ⟨by decide,
   queue_lock_mutual_exclusion
     (Reachable.step Reachable.init (Step.acquire (Sys.init 2) 0 rfl rfl))
     0 0 (by decide) (by decide)⟩

/-- C2: immediately after the STATE_RESET step of any interrogate call —
the state carried by the `clearState` event of its trace — all four Shared
Filter State containers are empty, whatever content the prior call left in
them. -/
theorem interrogate_state_reset_empty (env : Env) (st st' : QDataState)
    (req : TaggerInterrogateRequest)
    (h : Event.clearState st' ∈ (endpoint_interrogate env st req).2.2) :
    st'.tags = [] ∧ st'.ratings = [] ∧ st'.in_db = [] ∧
      st'.for_tags_file = [] := by
  cases himg : req.image with
  | none => simp [endpoint_interrogate, himg] at h
  | some b64 =>
    cases hlk : env.interrogators.lookup req.model with
    | none => simp [endpoint_interrogate, himg, hlk] at h
    | some intr =>
      simp only [endpoint_interrogate, himg, hlk, List.mem_append,
        List.mem_cons, List.mem_singleton, List.not_mem_nil] at h
      rcases h with ((h | h | h) | h) | h
      · exact absurd h (by simp)
      · exact absurd h (by simp)
      · exact absurd h (by simp)
      · have := queueLockSection_clearState_mem env st st' intr
          (env.decode_base64_to_image b64) h
        subst this
        simp [resetQData]
      · exact absurd h (by simp)

theorem interrogate_state_reset_empty_witness :
    (Event.clearState (resetQData stT) ∈
      (endpoint_interrogate envT stT reqT).2.2) ∧
    ((resetQData stT).tags = [] ∧ (resetQData stT).ratings = [] ∧
      (resetQData stT).in_db = [] ∧ (resetQData stT).for_tags_file = []) :=
  ⟨by decide,
   interrogate_state_reset_empty envT stT (resetQData stT) reqT (by decide)⟩

/-- C3: the queue lock is released before any interrogate call returns
control: for every environment — including those whose engine, filter or
finalize step raises — the trace balances its acquisitions with releases,
and whenever the lock was taken the last recorded event is its release. -/
theorem interrogate_releases_gate (env : Env) (st : QDataState)
    (req : TaggerInterrogateRequest) :
    ((endpoint_interrogate env st req).2.2.count Event.acquire =
      (endpoint_interrogate env st req).2.2.count Event.release) ∧
    ((endpoint_interrogate env st req).2.2 = [] ∨
      (endpoint_interrogate env st req).2.2.getLast? = some Event.release) := by
  cases himg : req.image with
  | none => simp [endpoint_interrogate, himg]
  | some b64 =>
    cases hlk : env.interrogators.lookup req.model with
    | none => simp [endpoint_interrogate, himg, hlk]
    | some intr =>
      have hq := queueLockSection_no_lock_events env st intr
        (env.decode_base64_to_image b64)
      constructor
      · simp [endpoint_interrogate, himg, hlk, List.count_append,
          List.count_cons, hq.1, hq.2]
      · right
        have h3 : ∀ (l : List Event),
            (([Event.decodeImageCall, Event.lookupModel req.model,
               Event.acquire] : List Event)
              ++ (l ++ [Event.release])).getLast? = some Event.release := by
          intro l
          exact (List.getLast?_append_of_ne_nil _ (by simp)).trans
            ((List.getLast?_append_of_ne_nil _ (by simp)).trans rfl)
        simp only [endpoint_interrogate, himg, hlk]
        exact h3 _

/-- C4: an interrogate request carrying an image but naming a model absent
from the registry fails with 404 "Model not found", leaves the Shared
Filter State untouched and records no event at all. -/
theorem interrogate_unknown_model (env : Env) (st : QDataState)
    (req : TaggerInterrogateRequest) (b64 : String)
    (himg : req.image = some b64)
    (hlk : env.interrogators.lookup req.model = none) :
    endpoint_interrogate env st req =
      (.error (.http ⟨404, "Model not found", []⟩), st, []) := by
  simp [endpoint_interrogate, himg, hlk]

theorem interrogate_unknown_model_witness :
    endpoint_interrogate envT stT reqNoModel =
      (.error (.http ⟨404, "Model not found", []⟩), stT, []) :=
  interrogate_unknown_model envT stT reqNoModel "imgbytes" rfl rfl

/-- C5: an interrogate request with a null image fails with 404
"Image not found", leaving state and trace untouched — in particular the
queue lock is never acquired. -/
theorem interrogate_no_image (env : Env) (st : QDataState)
    (req : TaggerInterrogateRequest)
    (himg : req.image = none) :
    endpoint_interrogate env st req =
      (.error (.http ⟨404, "Image not found", []⟩), st, []) ∧
    Event.acquire ∉ (endpoint_interrogate env st req).2.2 := by
  simp [endpoint_interrogate, himg]

theorem interrogate_no_image_witness :
    (endpoint_interrogate envT stT reqNoImage =
      (.error (.http ⟨404, "Image not found", []⟩), stT, []) ∧
    Event.acquire ∉ (endpoint_interrogate envT stT reqNoImage).2.2) :=
  interrogate_no_image envT stT reqNoImage rfl

/-- C10: a request that both lacks an image and names an unregistered
model fails with "Image not found", not "Model not found": the
image-presence check strictly precedes the model-existence check. -/
theorem interrogate_image_check_first (env : Env) (st : QDataState)
    (req : TaggerInterrogateRequest)
    (himg : req.image = none)
    (_hlk : env.interrogators.lookup req.model = none) :
    (endpoint_interrogate env st req).1 =
      .error (.http ⟨404, "Image not found", []⟩) := by
  simp [endpoint_interrogate, himg]

theorem interrogate_image_check_first_witness :
    (endpoint_interrogate envT stT reqNeither).1 =
      .error (.http ⟨404, "Image not found", []⟩) :=
  interrogate_image_check_first envT stT reqNeither rfl rfl

/-- C6: on every successful interrogate call, `finalize` is invoked with
batch-size argument exactly 1 — every `finalizeCall` event of the trace
carries 1 — and the response caption is the two-step Python dict merge of
the three finalized components: when the components have unique keys the
caption has no duplicate keys, and its lookup prefers the third component
over the second over the first (later merge sources win). -/
theorem interrogate_finalize_merge (env : Env) (st st2 st3 : QDataState)
    (req : TaggerInterrogateRequest) (b64 : String) (intr : Interrogator)
    (raw : Dict × Dict) (o0 o1 o2 : Dict)
    (himg : req.image = some b64)
    (hlk : env.interrogators.lookup req.model = some intr)
    (hrun : intr.interrogate (env.decode_base64_to_image b64) = .ok raw)
    (happ : env.apply_filters ("", "", "", raw.1, raw.2) (resetQData st) =
      .ok st2)
    (hfin : env.finalize 1 st2 = .ok ((o0, o1, o2), st3))
    (h0 : (o0.map Prod.fst).Nodup) (h1 : (o1.map Prod.fst).Nodup)
    (h2 : (o2.map Prod.fst).Nodup) :
    (endpoint_interrogate env st req).1 =
      .ok ⟨dictUpdate (dictUpdate o0 o1) o2⟩ ∧
    (∀ n, Event.finalizeCall n ∈ (endpoint_interrogate env st req).2.2 →
      n = 1) ∧
    ((dictUpdate (dictUpdate o0 o1) o2).map Prod.fst).Nodup ∧
    (∀ k, List.lookup k (dictUpdate (dictUpdate o0 o1) o2) =
      pick (List.lookup k o2)
        (pick (List.lookup k o1) (List.lookup k o0))) := by
  refine ⟨?_, ?_, ?_, ?_⟩
  · simp [endpoint_interrogate, himg, hlk, queueLockSection, hrun, happ, hfin]
  · intro n hn
    simp only [endpoint_interrogate, himg, hlk, List.mem_append,
      List.mem_cons, List.mem_singleton, List.not_mem_nil] at hn
    rcases hn with ((hn | hn | hn) | hn) | hn
    · exact absurd hn (by simp)
    · exact absurd hn (by simp)
    · exact absurd hn (by simp)
    · exact queueLockSection_finalize_batch env st intr
        (env.decode_base64_to_image b64) n hn
    · exact absurd hn (by simp)
  · exact dictUpdate_keys_nodup (dictUpdate_keys_nodup h0 h1) h2
  · intro k
    rw [dictUpdate_lookup, dictUpdate_lookup]

theorem interrogate_finalize_merge_witness :
    (endpoint_interrogate envT stT reqT).1 =
      .ok ⟨dictUpdate (dictUpdate [("general", 9)] [("cat", 8), ("x", 1)])
        [("x", 5)]⟩ ∧
    (∀ n, Event.finalizeCall n ∈ (endpoint_interrogate envT stT reqT).2.2 →
      n = 1) ∧
    ((dictUpdate (dictUpdate [("general", 9)] [("cat", 8), ("x", 1)])
        [("x", 5)]).map Prod.fst).Nodup ∧
    (∀ k, List.lookup k
        (dictUpdate (dictUpdate [("general", 9)] [("cat", 8), ("x", 1)])
          [("x", 5)]) =
      pick (List.lookup k [("x", 5)])
        (pick (List.lookup k [("cat", 8), ("x", 1)])
          (List.lookup k [("general", 9)]))) :=
  interrogate_finalize_merge envT stT
    { tags := [("cat", 8), ("x", 1)], ratings := [("general", 9)],
      in_db := [], for_tags_file := [] }
    { tags := [("cat", 8), ("x", 1)], ratings := [("general", 9)],
      in_db := [], for_tags_file := [] }
    reqT "imgbytes" intrT ([("general", 9)], [("cat", 8), ("x", 1)])
    [("general", 9)] [("cat", 8), ("x", 1)] [("x", 5)]
    rfl rfl rfl rfl rfl (by decide) (by decide) (by decide)

/-- C7: with authentication configured, `auth` succeeds exactly when the
presented username is a key of the credential table and the stored
password equals the presented one (the functional contract of the
constant-time `compare_digest`); on any mismatch — unknown username or
wrong password — it returns the 401 carrying the `WWW-Authenticate: Basic`
header and detail "Incorrect username or password". -/
theorem auth_spec (credentials : List (String × String))
    (creds : HTTPBasicCredentials) :
    auth credentials creds =
      if credentials.lookup creds.username = some creds.password
      then .ok true else .error unauthorized := by
  unfold auth compare_digest
  cases h : List.lookup creds.username credentials with
  | none => simp [h]
  | some pw =>
    by_cases hp : creds.password = pw
    · subst hp
      simp [h]
    · simp [h, hp, Ne.symm hp]

/-- C8: `endpoint_unload_interrogators` visits every handle of the
registry and renders "Successfully unload N model(s)" where N counts
exactly the handles whose `unload()` returned true. -/
theorem unload_count_spec (interrogators : List (String × Interrogator)) :
    endpoint_unload_interrogators interrogators =
      "Successfully unload " ++
        toString (interrogators.countP fun i => i.2.unload) ++
        " model(s)" := by
  unfold endpoint_unload_interrogators
  rw [foldl_unload_count interrogators 0, Nat.zero_add]
  rfl

/-- C9, counterexample: it is not true that every registry lookup of an
interrogate call happens while the queue lock is held — on a concrete run
the `lookupModel` event precedes the `acquire` event. -/
theorem interrogate_lookup_under_gate_cex :
    ¬ (∀ (env : Env) (st : QDataState) (req : TaggerInterrogateRequest),
        lookupsUnderGate (endpoint_interrogate env st req).2.2 = true) := by
  intro hclaim
  have h := hclaim envT stT reqT
  revert h
  decide

/-- C9, amended: within every interrogate call that reaches the locked
section, the gate is acquired first, the Shared Filter State is reset
second, and only then is `interrogate(image)` invoked — the reset and the
invocation happen while the gate is held — but the model-handle lookup
(and the image decode) happen before the gate is acquired, not under
it. -/
theorem interrogate_gate_order (env : Env) (st : QDataState)
    (req : TaggerInterrogateRequest) (b64 : String) (intr : Interrogator)
    (himg : req.image = some b64)
    (hlk : env.interrogators.lookup req.model = some intr) :
    (endpoint_interrogate env st req).2.2.take 5 =
      [Event.decodeImageCall, Event.lookupModel req.model, Event.acquire,
       Event.clearState (resetQData st), Event.invokeCall] ∧
    heldBefore (endpoint_interrogate env st req).2.2 1 = false ∧
    heldBefore (endpoint_interrogate env st req).2.2 3 = true ∧
    heldBefore (endpoint_interrogate env st req).2.2 4 = true := by
  obtain ⟨rest, hshape⟩ := queueLockSection_trace_shape env st intr
    (env.decode_base64_to_image b64)
  have htr : (endpoint_interrogate env st req).2.2 =
      Event.decodeImageCall :: Event.lookupModel req.model :: Event.acquire ::
      Event.clearState (resetQData st) :: Event.invokeCall ::
      (rest ++ [Event.release]) := by
    simp [endpoint_interrogate, himg, hlk, hshape]
  rw [htr]
  refine ⟨rfl, ?_, ?_, ?_⟩ <;> rfl

theorem interrogate_gate_order_witness :
    (endpoint_interrogate envT stT reqT).2.2.take 5 =
      [Event.decodeImageCall, Event.lookupModel reqT.model, Event.acquire,
       Event.clearState (resetQData stT), Event.invokeCall] ∧
    heldBefore (endpoint_interrogate envT stT reqT).2.2 1 = false ∧
    heldBefore (endpoint_interrogate envT stT reqT).2.2 3 = true ∧
    heldBefore (endpoint_interrogate envT stT reqT).2.2 4 = true :=
  interrogate_gate_order envT stT reqT "imgbytes" intrT rfl rfl

end Tagger
